import Mathlib

/-!
Shallow embedding of the event query/authorization/versioning subsystem of
the Event-management-system repository (src/lib/services/event.service.ts,
src/app/api/events/[id]/route.ts, src/lib/db/schema.ts).

Persisted state is modelled as a list of `Event` records; timestamps are
integers; the fallible service methods return `Except ErrorCode`.
-/

namespace EMS

/-- Event status enumeration (schema column `status`). -/
inductive EventStatus
  | draft | published | cancelled | completed | archived
deriving DecidableEq, Repr

/-- Event visibility enumeration (schema column `visibility`); the source
values are `public`, `private`, `unlisted`. -/
inductive Visibility
  | publicV | privateV | unlistedV
deriving DecidableEq, Repr

/-- Caller roles (`user`, `organizer`, `admin`). -/
inductive Role
  | user | organizer | admin
deriving DecidableEq, Repr

/-- Operations accepted by `verifyEventAccess`. -/
inductive Operation
  | read | update | delete | publish
deriving DecidableEq, Repr

/-- Error codes from `error-handler.ts` that the event service raises. -/
inductive ErrorCode
  | VALIDATION_ERROR | NOT_FOUND | UNAUTHORIZED | FORBIDDEN | CONFLICT
  | INTERNAL_ERROR | DATABASE_ERROR
deriving DecidableEq, Repr

/-- Location tagged union: physical or virtual (event.types.ts). -/
inductive Location
  | physical (address city country : String) (coordinates : Option (Int × Int))
  | virtual (url : String) (platform : Option String)
deriving DecidableEq, Repr

/-- Price type: free or paid. -/
inductive PriceType
  | free | paid
deriving DecidableEq, Repr

/-- Event price record `{amount, currency, type}`. -/
structure EventPrice where
  amount : Int
  currency : String
  type : PriceType
deriving DecidableEq, Repr

/-- Event images record `{thumbnail, banner, gallery?}`. -/
structure EventImages where
  thumbnail : String
  banner : String
  gallery : Option (List String)
deriving DecidableEq, Repr

/-- The persisted Event row (schema.ts `events` table).  The free-form
JSON `metadata` map is modelled as an association list; `JSON_LENGTH`
corresponds to its list length. -/
structure Event where
  id : String
  slug : String
  title : String
  description : String
  excerpt : Option String
  startDateTime : Int
  endDateTime : Int
  timezone : String
  location : Location
  capacity : Option Int
  currentAttendees : Int
  status : EventStatus
  visibility : Visibility
  organizerId : String
  categoryId : Option String
  price : Option EventPrice
  images : EventImages
  metadata : List (String × String)
  version : Int
  createdAt : Int
  updatedAt : Int
  publishedAt : Option Int
deriving DecidableEq, Repr

/-- The event table, modelled as the list of persisted rows. -/
abbrev Store := List Event

/-- `findById`: first row whose `id` column matches. -/
def findById (store : Store) (id : String) : Option Event :=
  store.find? (fun e => e.id == id)

/-- `findBySlug`: first row whose `slug` column matches. -/
def findBySlug (store : Store) (slug : String) : Option Event :=
  store.find? (fun e => e.slug == slug)

/-- A partial row update keyed by id (the `db.update(events).where(eq(events.id,...))`
pattern): every row with the given id is replaced by the new row. -/
def setEvent (store : Store) (e : Event) : Store :=
  store.map (fun x => if x.id == e.id then e else x)

/-! ### Slug generation (`generateSlug`) -/

/-- Characters kept by the `[^a-z0-9\s-]` removal step: lowercase ASCII
letters, ASCII digits, whitespace, and hyphen. -/
def keepChar (c : Char) : Bool :=
  (97 ≤ c.toNat && c.toNat ≤ 122) || (48 ≤ c.toNat && c.toNat ≤ 57) ||
    c.isWhitespace || c == '-'

/-- Replace every maximal run of characters satisfying `p` by the single
character `r` (the `replace(/X+/g, Y)` pattern).  The boolean argument
records whether the previous character was part of a run. -/
def replaceRuns (p : Char → Bool) (r : Char) : List Char → Bool → List Char
  | [], _ => []
  | c :: rest, inRun =>
    if p c then
      (if inRun then [] else [r]) ++ replaceRuns p r rest true
    else
      c :: replaceRuns p r rest false

/-- `replace(/^-|-$/g, '')`: remove a single leading and a single trailing
hyphen. -/
def stripEdgeHyphens (l : List Char) : List Char :=
  let l1 := match l with
    | '-' :: rest => rest
    | other => other
  match l1.reverse with
  | '-' :: rest => rest.reverse
  | _ => l1

/-- `trim()`: drop whitespace from both ends of a character list. -/
def trimChars (l : List Char) : List Char :=
  ((l.dropWhile Char.isWhitespace).reverse.dropWhile Char.isWhitespace).reverse

/-- The slug-processing pipeline of `generateSlug` before the fallback:
lowercase, trim, drop special characters, whitespace runs to hyphens,
collapse hyphen runs, strip edge hyphens. -/
def slugCore (title : String) : String :=
  let step1 := (trimChars (title.data.map Char.toLower)).filter keepChar
  let step2 := replaceRuns (fun c => c.isWhitespace) '-' step1 false
  let step3 := replaceRuns (fun c => c == '-') '-' step2 false
  String.mk (stripEdgeHyphens step3)

/-- `generateSlug`: the processed title, or the fallback `untitled-event`
when the processed form is empty. -/
def generateSlug (title : String) : String :=
  let slug := slugCore title
  if slug == "" then "untitled-event" else slug

/-! ### Query parameters and filter composition -/

/-- Sort fields accepted by `findMany`. -/
inductive SortBy
  | startDate | createdAt | title | capacity
deriving DecidableEq, Repr

/-- Sort directions. -/
inductive SortOrder
  | asc | desc
deriving DecidableEq, Repr

/-- `EventQueryParams` (event.types.ts).  `fromDate`/`toDate` carry
already-parsed valid timestamps: the route layer validates the datetime
format before the service is reached. -/
structure EventQueryParams where
  page : Option Nat := none
  limit : Option Nat := none
  status : Option EventStatus := none
  category : Option String := none
  fromDate : Option Int := none
  toDate : Option Int := none
  search : Option String := none
  visibility : Option Visibility := none
  organizerId : Option String := none
  minCapacity : Option Int := none
  maxCapacity : Option Int := none
  priceType : Option PriceType := none
  minPrice : Option Int := none
  maxPrice : Option Int := none
  hasNFT : Option Bool := none
  sortBy : Option SortBy := none
  sortOrder : Option SortOrder := none
deriving DecidableEq, Repr

/-- Character-list equality on a leading segment: `needle` starts `hay`. -/
def charsLeading : List Char → List Char → Bool
  | [], _ => true
  | _ :: _, [] => false
  | a :: as, b :: bs => a == b && charsLeading as bs

/-- Contiguous occurrence of `needle` anywhere inside `hay`. -/
def charsOccur (needle : List Char) : List Char → Bool
  | [] => needle.isEmpty
  | b :: bs => charsLeading needle (b :: bs) || charsOccur needle bs

/-- Case-insensitive substring containment: the semantics of the MySQL
`LIKE '%needle%'` conditions under the default case-insensitive collation. -/
def likeCI (haystack needle : String) : Bool :=
  charsOccur (needle.data.map Char.toLower) (haystack.data.map Char.toLower)

/-- One search term matches when it occurs in the title, the description,
or the (nullable) excerpt; a NULL excerpt matches nothing (SQL `LIKE` on
NULL). -/
def termCond (t : String) (e : Event) : Bool :=
  likeCI e.title t || likeCI e.description t ||
    (match e.excerpt with
     | some x => likeCI x t
     | none => false)

/-- Accumulator-based tokenizer: the non-empty maximal runs of
non-whitespace characters, in order (the semantics of
`split(/\s+/).filter(term => term.length > 0)` on a trimmed string). -/
def tokensAux : List Char → List Char → List (List Char)
  | [], acc => if acc.isEmpty then [] else [acc.reverse]
  | c :: rest, acc =>
    if c.isWhitespace then
      (if acc.isEmpty then [] else [acc.reverse]) ++ tokensAux rest []
    else
      tokensAux rest (c :: acc)

/-- `search.trim().split(/\s+/).filter(term => term.length > 0)`. -/
def searchTermsOf (s : String) : List String :=
  (tokensAux (trimChars s.data) []).map (fun l => String.mk l)

/-- Status filter condition (`eq(events.status, status)`). -/
def statusConds (params : EventQueryParams) : List (Event → Bool) :=
  match params.status with
  | some s => [fun e => e.status == s]
  | none => []

/-- Organizer filter condition (`eq(events.organizerId, organizerId)`). -/
def organizerConds (params : EventQueryParams) : List (Event → Bool) :=
  match params.organizerId with
  | some o => [fun e => e.organizerId == o]
  | none => []

/-- Category filter condition (`eq(events.categoryId, category)`). -/
def categoryConds (params : EventQueryParams) : List (Event → Bool) :=
  match params.category with
  | some c => [fun e => e.categoryId == some c]
  | none => []

/-- Visibility filter condition (`eq(events.visibility, visibility)`). -/
def visibilityConds (params : EventQueryParams) : List (Event → Bool) :=
  match params.visibility with
  | some v => [fun e => e.visibility == v]
  | none => []

/-- From-date condition (`gte(events.startDateTime, fromDate)`). -/
def fromDateConds (params : EventQueryParams) : List (Event → Bool) :=
  match params.fromDate with
  | some d => [fun e => decide (d ≤ e.startDateTime)]
  | none => []

/-- To-date condition (`lte(events.endDateTime, toDate)`). -/
def toDateConds (params : EventQueryParams) : List (Event → Bool) :=
  match params.toDate with
  | some d => [fun e => decide (e.endDateTime ≤ d)]
  | none => []

/-- Min-capacity condition (`gte(events.capacity, minCapacity)`; a NULL
capacity fails an SQL comparison). -/
def minCapacityConds (params : EventQueryParams) : List (Event → Bool) :=
  match params.minCapacity with
  | some m =>
    [fun e => match e.capacity with
      | some c => decide (m ≤ c)
      | none => false]
  | none => []

/-- Max-capacity condition (`lte(events.capacity, maxCapacity)`). -/
def maxCapacityConds (params : EventQueryParams) : List (Event → Bool) :=
  match params.maxCapacity with
  | some m =>
    [fun e => match e.capacity with
      | some c => decide (c ≤ m)
      | none => false]
  | none => []

/-- Price-type condition: `free` matches a NULL price or `type = 'free'`;
`paid` requires `type = 'paid'`. -/
def priceTypeConds (params : EventQueryParams) : List (Event → Bool) :=
  match params.priceType with
  | some PriceType.free =>
    [fun e => match e.price with
      | some p => p.type == PriceType.free
      | none => true]
  | some PriceType.paid =>
    [fun e => match e.price with
      | some p => p.type == PriceType.paid
      | none => false]
  | none => []

/-- Min-price condition (`JSON_EXTRACT(price,'$.amount') >= minPrice`; a
NULL price fails the SQL comparison). -/
def minPriceConds (params : EventQueryParams) : List (Event → Bool) :=
  match params.minPrice with
  | some m =>
    [fun e => match e.price with
      | some p => decide (m ≤ p.amount)
      | none => false]
  | none => []

/-- Max-price condition (`JSON_EXTRACT(price,'$.amount') <= maxPrice`). -/
def maxPriceConds (params : EventQueryParams) : List (Event → Bool) :=
  match params.maxPrice with
  | some m =>
    [fun e => match e.price with
      | some p => decide (p.amount ≤ m)
      | none => false]
  | none => []

/-- NFT-metadata condition: `hasNFT = true` requires a non-empty metadata
map (`JSON_LENGTH > 0`), `false` an empty one. -/
def hasNFTConds (params : EventQueryParams) : List (Event → Bool) :=
  match params.hasNFT with
  | some true => [fun e => decide (0 < e.metadata.length)]
  | some false => [fun e => decide (e.metadata.length = 0)]
  | none => []

/-- Free-text search conditions: single term gets a title/description/
excerpt disjunction; multiple terms get the conjunction of the per-term
disjunctions. -/
def searchConds (params : EventQueryParams) : List (Event → Bool) :=
  match params.search with
  | none => []
  | some s =>
    if (trimChars s.data).isEmpty then []
    else
      match searchTermsOf s with
      | [t] => [termCond t]
      | ts => [fun e => ts.all (fun t => termCond t e)]

/-- `buildFilterConditions`: the conditions list in source order. -/
def buildFilterConditions (params : EventQueryParams) : List (Event → Bool) :=
  statusConds params ++ organizerConds params ++ categoryConds params ++
    visibilityConds params ++ fromDateConds params ++ toDateConds params ++
    minCapacityConds params ++ maxCapacityConds params ++
    priceTypeConds params ++ minPriceConds params ++ maxPriceConds params ++
    hasNFTConds params ++ searchConds params

/-- The WHERE clause: all conditions must hold (`and(...conditions)`); an
empty list means no restriction. -/
def whereClause (params : EventQueryParams) (e : Event) : Bool :=
  (buildFilterConditions params).all (fun c => c e)

/-! ### Sorting and pagination -/

/-- Comparison on nullable capacity columns: SQL orders NULL first. -/
def optIntLe (a b : Option Int) : Bool :=
  match a, b with
  | none, _ => true
  | some _, none => false
  | some x, some y => decide (x ≤ y)

/-- The ascending key comparison chosen by `sortBy` (default `startDate`). -/
def keyLe (sortBy : SortBy) (a b : Event) : Bool :=
  match sortBy with
  | SortBy.createdAt => decide (a.createdAt ≤ b.createdAt)
  | SortBy.title => decide (a.title ≤ b.title)
  | SortBy.capacity => optIntLe a.capacity b.capacity
  | SortBy.startDate => decide (a.startDateTime ≤ b.startDateTime)

/-- The comparison used by `orderBy`, flipped when `sortOrder = 'desc'`. -/
def orderLe (params : EventQueryParams) (a b : Event) : Bool :=
  let sb := params.sortBy.getD SortBy.startDate
  if params.sortOrder.getD SortOrder.asc == SortOrder.desc then
    keyLe sb b a
  else
    keyLe sb a b

/-- Insert into a sorted list (helper for the ordering model). -/
def insertLe (le : Event → Event → Bool) (a : Event) : List Event → List Event
  | [] => [a]
  | b :: rest => if le a b then a :: b :: rest else b :: insertLe le a rest

/-- Insertion sort: the model of the SQL `ORDER BY` (the claims only rely
on the output being a rearrangement of the input). -/
def sortEvents (le : Event → Event → Bool) : List Event → List Event
  | [] => []
  | a :: rest => insertLe le a (sortEvents le rest)

/-- Paginated response shape. -/
structure PaginatedResponse where
  data : List Event
  page : Nat
  limit : Nat
  total : Nat
  totalPages : Nat
  hasNext : Bool
  hasPrev : Bool
deriving DecidableEq, Repr

/-- `findMany`: sanitize pagination, filter with the conjunctive WHERE
clause, order, and slice; the total count uses the same WHERE clause. -/
def findMany (store : Store) (params : EventQueryParams) : PaginatedResponse :=
  let page := max 1 (params.page.getD 1)
  let limit := min (max 1 (params.limit.getD 20)) 100
  let offset := (page - 1) * limit
  let matching := store.filter (whereClause params)
  let sorted := sortEvents (orderLe params) matching
  let data := (sorted.drop offset).take limit
  let total := matching.length
  let totalPages := (total + limit - 1) / limit
  { data := data
    page := page
    limit := limit
    total := total
    totalPages := totalPages
    hasNext := decide (page < totalPages)
    hasPrev := decide (1 < page) }

/-! ### Authorization gate -/

/-- `verifyEventAccess`: centralized role/ownership authorization.
Missing event is NOT_FOUND; admins pass; reads pass on public+published
or ownership; writes require ownership and a non-`user` role; every
denial is FORBIDDEN. -/
def verifyEventAccess (store : Store) (eventId userId : String)
    (userRole : Role) (operation : Operation) : Except ErrorCode Event :=
  match findById store eventId with
  | none => Except.error ErrorCode.NOT_FOUND
  | some event =>
    if userRole == Role.admin then Except.ok event
    else
      match operation with
      | Operation.read =>
        if event.visibility == Visibility.publicV &&
            event.status == EventStatus.published then
          Except.ok event
        else if event.organizerId == userId then
          Except.ok event
        else
          Except.error ErrorCode.FORBIDDEN
      | _ =>
        if event.organizerId != userId then
          Except.error ErrorCode.FORBIDDEN
        else if userRole == Role.user then
          Except.error ErrorCode.FORBIDDEN
        else
          Except.ok event

/-- The caller identity attached to a request (`{userId, role}`), absent
for anonymous callers. -/
structure Caller where
  userId : String
  role : Role
deriving DecidableEq, Repr

/-- The GET /api/events/[id] handler: optional authentication defaults to
`userId = ''`, `role = 'user'`; a FORBIDDEN outcome from the read check is
surfaced as NOT_FOUND for privacy. -/
def getEventRoute (store : Store) (eventId : String) (user : Option Caller) :
    Except ErrorCode Event :=
  let userId := (user.map Caller.userId).getD ""
  let role := (user.map Caller.role).getD Role.user
  match verifyEventAccess store eventId userId role Operation.read with
  | Except.ok e => Except.ok e
  | Except.error ErrorCode.FORBIDDEN => Except.error ErrorCode.NOT_FOUND
  | Except.error err => Except.error err

/-! ### Mutations -/

/-- The create payload (`CreateEventRequest`), with dates already parsed. -/
structure CreateEventRequest where
  title : String
  description : String
  excerpt : Option String := none
  startDateTime : Int
  endDateTime : Int
  timezone : String
  location : Location
  capacity : Option Int := none
  visibility : Visibility
  price : Option EventPrice := none
  images : EventImages
  categoryId : Option String := none
  metadata : List (String × String) := []
deriving DecidableEq, Repr

/-- `create`: derive the slug, fail with CONFLICT when any event already
has it, otherwise insert the new row with `version = 1`,
`currentAttendees = 0`, default status `draft`. -/
def create (store : Store) (d : CreateEventRequest) (organizerId : String)
    (newId : String) (now : Int) : Except ErrorCode (Event × Store) :=
  let slug := generateSlug d.title
  match findBySlug store slug with
  | some _ => Except.error ErrorCode.CONFLICT
  | none =>
    let e : Event :=
      { id := newId
        slug := slug
        title := d.title
        description := d.description
        excerpt := d.excerpt
        startDateTime := d.startDateTime
        endDateTime := d.endDateTime
        timezone := d.timezone
        location := d.location
        capacity := d.capacity
        currentAttendees := 0
        status := EventStatus.draft
        visibility := d.visibility
        organizerId := organizerId
        categoryId := d.categoryId
        price := d.price
        images := d.images
        metadata := d.metadata
        version := 1
        createdAt := now
        updatedAt := now
        publishedAt := none }
    Except.ok (e, store ++ [e])

/-- The update payload (`UpdateEventRequest`): every field optional.
`excerpt` is accepted by the validation schema but ignored by the service
update method, exactly as in the source. -/
structure UpdateEventRequest where
  title : Option String := none
  description : Option String := none
  excerpt : Option String := none
  timezone : Option String := none
  location : Option Location := none
  capacity : Option Int := none
  visibility : Option Visibility := none
  price : Option EventPrice := none
  images : Option EventImages := none
  categoryId : Option String := none
  nftMetadata : Option (List (String × String)) := none
  status : Option EventStatus := none
  startDateTime : Option Int := none
  endDateTime : Option Int := none
deriving DecidableEq, Repr

/-- The row produced by the `db.update(...).set({...updateData, version:
version + 1})` call: fields present in the payload are overwritten,
`updatedAt` is refreshed, `publishedAt` is set to `now` when status is
being changed to `published` from a non-published value, and `version`
is incremented. -/
def applyUpdateData (e : Event) (d : UpdateEventRequest) (now : Int)
    (newSlug : Option String) : Event :=
  { e with
    updatedAt := now
    title := d.title.getD e.title
    description := d.description.getD e.description
    timezone := d.timezone.getD e.timezone
    location := d.location.getD e.location
    capacity := match d.capacity with
      | some c => some c
      | none => e.capacity
    visibility := d.visibility.getD e.visibility
    price := match d.price with
      | some p => some p
      | none => e.price
    images := d.images.getD e.images
    categoryId := match d.categoryId with
      | some c => some c
      | none => e.categoryId
    metadata := d.nftMetadata.getD e.metadata
    status := d.status.getD e.status
    startDateTime := d.startDateTime.getD e.startDateTime
    endDateTime := d.endDateTime.getD e.endDateTime
    slug := newSlug.getD e.slug
    publishedAt :=
      if d.status == some EventStatus.published &&
          e.status != EventStatus.published then
        some now
      else
        e.publishedAt
    version := e.version + 1 }

/-- `EventService.update`: NOT_FOUND for a missing row, FORBIDDEN for a
non-owner caller; a changed title derives a new slug checked for conflict
against all other rows (excluding self) before the write; otherwise the
row is rewritten by `applyUpdateData`. -/
def update (store : Store) (id : String) (d : UpdateEventRequest)
    (organizerId : String) (now : Int) : Except ErrorCode (Event × Store) :=
  match findById store id with
  | none => Except.error ErrorCode.NOT_FOUND
  | some existing =>
    if existing.organizerId != organizerId then
      Except.error ErrorCode.FORBIDDEN
    else
      match d.title with
      | some t =>
        if t != existing.title then
          let newSlug := generateSlug t
          if store.any (fun e => e.slug == newSlug && e.id != id) then
            Except.error ErrorCode.CONFLICT
          else
            let e' := applyUpdateData existing d now (some newSlug)
            Except.ok (e', setEvent store e')
        else
          let e' := applyUpdateData existing d now none
          Except.ok (e', setEvent store e')
      | none =>
        let e' := applyUpdateData existing d now none
        Except.ok (e', setEvent store e')

/-- `EventService.delete`: soft delete; NOT_FOUND / FORBIDDEN checks as in
update, then the row's status is set to `archived` and `updatedAt` is
refreshed — nothing else changes and the row is kept. -/
def deleteEvent (store : Store) (id organizerId : String) (now : Int) :
    Except ErrorCode Store :=
  match findById store id with
  | none => Except.error ErrorCode.NOT_FOUND
  | some existing =>
    if existing.organizerId != organizerId then
      Except.error ErrorCode.FORBIDDEN
    else
      Except.ok (setEvent store
        { existing with status := EventStatus.archived, updatedAt := now })

/-- A sequence of update calls on one event, each with its own payload and
clock value; stops at the first failure. -/
def applyUpdates (store : Store) (id : String)
    (reqs : List (UpdateEventRequest × Int)) (organizerId : String) :
    Except ErrorCode Store :=
  match reqs with
  | [] => Except.ok store
  | (d, now) :: rest =>
    match update store id d organizerId now with
    | Except.error err => Except.error err
    | Except.ok (_, store') => applyUpdates store' id rest organizerId

/-! ### Role-constrained listing -/

/-- `findManyWithAuthorization`: anonymous (no id, empty id, or no role)
and `user` callers are forced to `status=published, visibility=public`;
organizers are forced to their own `organizerId`; admins are
unconstrained; then the ordinary `findMany` composition runs. -/
def findManyWithAuthorization (store : Store) (params : EventQueryParams)
    (userId : Option String) (userRole : Option Role) : PaginatedResponse :=
  let constrained :=
    match userId, userRole with
    | some uid, some role =>
      if uid == "" then
        { params with status := some EventStatus.published,
                      visibility := some Visibility.publicV }
      else
        match role with
        | Role.user =>
          { params with status := some EventStatus.published,
                        visibility := some Visibility.publicV }
        | Role.organizer => { params with organizerId := some uid }
        | Role.admin => params
    | _, _ =>
      { params with status := some EventStatus.published,
                    visibility := some Visibility.publicV }
  findMany store constrained

/-! ### Helper lemmas: membership through sorting and pagination -/

theorem mem_insertLe (le : Event → Event → Bool) (a x : Event) :
    ∀ l : List Event, x ∈ insertLe le a l ↔ x = a ∨ x ∈ l := by
  intro l
  induction l with
  | nil => simp [insertLe]
  | cons b rest ih =>
    by_cases h : le a b = true
    · simp [insertLe, h]
    · simp only [insertLe, h, Bool.false_eq_true, if_false, List.mem_cons, ih]
      tauto

theorem mem_sortEvents (le : Event → Event → Bool) (x : Event) :
    ∀ l : List Event, x ∈ sortEvents le l ↔ x ∈ l := by
  intro l
  induction l with
  | nil => simp [sortEvents]
  | cons a rest ih =>
    simp [sortEvents, mem_insertLe, ih]

theorem mem_findMany_data (store : Store) (params : EventQueryParams)
    (e : Event) (h : e ∈ (findMany store params).data) :
    e ∈ store.filter (whereClause params) := by
  unfold findMany at h
  simp only at h
  exact (mem_sortEvents _ _ _).mp (List.mem_of_mem_drop (List.mem_of_mem_take h))

theorem whereClause_of_mem_data (store : Store) (params : EventQueryParams)
    (e : Event) (h : e ∈ (findMany store params).data) :
    whereClause params e = true := by
  have := mem_findMany_data store params e h
  exact (List.mem_filter.mp this).2

/-! ### The conjunctive filter contract -/

/-- The per-filter satisfaction contract: each supplied filter parameter
holds of the event, independently of the other filters. -/
def satisfiesFilters (params : EventQueryParams) (e : Event) : Prop :=
  (∀ s, params.status = some s → e.status = s) ∧
  (∀ o, params.organizerId = some o → e.organizerId = o) ∧
  (∀ c, params.category = some c → e.categoryId = some c) ∧
  (∀ v, params.visibility = some v → e.visibility = v) ∧
  (∀ d, params.fromDate = some d → d ≤ e.startDateTime) ∧
  (∀ d, params.toDate = some d → e.endDateTime ≤ d) ∧
  (∀ m, params.minCapacity = some m → ∃ c, e.capacity = some c ∧ m ≤ c) ∧
  (∀ m, params.maxCapacity = some m → ∃ c, e.capacity = some c ∧ c ≤ m) ∧
  (params.priceType = some PriceType.free →
    e.price = none ∨ ∃ p, e.price = some p ∧ p.type = PriceType.free) ∧
  (params.priceType = some PriceType.paid →
    ∃ p, e.price = some p ∧ p.type = PriceType.paid) ∧
  (∀ m, params.minPrice = some m → ∃ p, e.price = some p ∧ m ≤ p.amount) ∧
  (∀ m, params.maxPrice = some m → ∃ p, e.price = some p ∧ p.amount ≤ m) ∧
  (params.hasNFT = some true → 0 < e.metadata.length) ∧
  (params.hasNFT = some false → e.metadata.length = 0) ∧
  (∀ s, params.search = some s → trimChars s.data ≠ [] →
    ∀ t ∈ searchTermsOf s, termCond t e = true)

theorem whereClause_decomp (params : EventQueryParams) (e : Event)
    (h : whereClause params e = true) :
    (statusConds params).all (fun c => c e) = true ∧
    (organizerConds params).all (fun c => c e) = true ∧
    (categoryConds params).all (fun c => c e) = true ∧
    (visibilityConds params).all (fun c => c e) = true ∧
    (fromDateConds params).all (fun c => c e) = true ∧
    (toDateConds params).all (fun c => c e) = true ∧
    (minCapacityConds params).all (fun c => c e) = true ∧
    (maxCapacityConds params).all (fun c => c e) = true ∧
    (priceTypeConds params).all (fun c => c e) = true ∧
    (minPriceConds params).all (fun c => c e) = true ∧
    (maxPriceConds params).all (fun c => c e) = true ∧
    (hasNFTConds params).all (fun c => c e) = true ∧
    (searchConds params).all (fun c => c e) = true := by
  unfold whereClause buildFilterConditions at h
  simp only [List.all_append, Bool.and_eq_true] at h
  tauto

theorem satisfiesFilters_of_whereClause (params : EventQueryParams)
    (e : Event) (h : whereClause params e = true) :
    satisfiesFilters params e := by
  obtain ⟨h1, h2, h3, h4, h5, h6, h7, h8, h9, h10, h11, h12, h13⟩ :=
    whereClause_decomp params e h
  refine ⟨?_, ?_, ?_, ?_, ?_, ?_, ?_, ?_, ?_, ?_, ?_, ?_, ?_, ?_, ?_⟩
  · intro s hs
    simp only [statusConds, hs, List.all_cons, List.all_nil, Bool.and_true,
      beq_iff_eq] at h1
    exact h1
  · intro o ho
    simp only [organizerConds, ho, List.all_cons, List.all_nil, Bool.and_true,
      beq_iff_eq] at h2
    exact h2
  · intro c hc
    simp only [categoryConds, hc, List.all_cons, List.all_nil, Bool.and_true,
      beq_iff_eq] at h3
    exact h3
  · intro v hv
    simp only [visibilityConds, hv, List.all_cons, List.all_nil, Bool.and_true,
      beq_iff_eq] at h4
    exact h4
  · intro d hd
    simp only [fromDateConds, hd, List.all_cons, List.all_nil, Bool.and_true,
      decide_eq_true_eq] at h5
    exact h5
  · intro d hd
    simp only [toDateConds, hd, List.all_cons, List.all_nil, Bool.and_true,
      decide_eq_true_eq] at h6
    exact h6
  · intro m hm
    simp only [minCapacityConds, hm, List.all_cons, List.all_nil,
      Bool.and_true] at h7
    cases hc : e.capacity with
    | none => rw [hc] at h7; simp at h7
    | some c =>
      rw [hc] at h7
      simp only [decide_eq_true_eq] at h7
      exact ⟨c, rfl, h7⟩
  · intro m hm
    simp only [maxCapacityConds, hm, List.all_cons, List.all_nil,
      Bool.and_true] at h8
    cases hc : e.capacity with
    | none => rw [hc] at h8; simp at h8
    | some c =>
      rw [hc] at h8
      simp only [decide_eq_true_eq] at h8
      exact ⟨c, rfl, h8⟩
  · intro hp
    simp only [priceTypeConds, hp, List.all_cons, List.all_nil,
      Bool.and_true] at h9
    cases hc : e.price with
    | none => exact Or.inl rfl
    | some p =>
      rw [hc] at h9
      simp only [beq_iff_eq] at h9
      exact Or.inr ⟨p, rfl, h9⟩
  · intro hp
    simp only [priceTypeConds, hp, List.all_cons, List.all_nil,
      Bool.and_true] at h9
    cases hc : e.price with
    | none => rw [hc] at h9; simp at h9
    | some p =>
      rw [hc] at h9
      simp only [beq_iff_eq] at h9
      exact ⟨p, rfl, h9⟩
  · intro m hm
    simp only [minPriceConds, hm, List.all_cons, List.all_nil,
      Bool.and_true] at h10
    cases hc : e.price with
    | none => rw [hc] at h10; simp at h10
    | some p =>
      rw [hc] at h10
      simp only [decide_eq_true_eq] at h10
      exact ⟨p, rfl, h10⟩
  · intro m hm
    simp only [maxPriceConds, hm, List.all_cons, List.all_nil,
      Bool.and_true] at h11
    cases hc : e.price with
    | none => rw [hc] at h11; simp at h11
    | some p =>
      rw [hc] at h11
      simp only [decide_eq_true_eq] at h11
      exact ⟨p, rfl, h11⟩
  · intro hn
    simp only [hasNFTConds, hn, List.all_cons, List.all_nil, Bool.and_true,
      decide_eq_true_eq] at h12
    exact h12
  · intro hn
    simp only [hasNFTConds, hn, List.all_cons, List.all_nil, Bool.and_true,
      decide_eq_true_eq] at h12
    exact h12
  · intro s hs hne t ht
    simp only [searchConds, hs] at h13
    have hbeq : (trimChars s.data).isEmpty = false := by
      simpa [List.isEmpty_iff] using hne
    rw [hbeq] at h13
    simp only [Bool.false_eq_true, if_false] at h13
    rcases hterm : searchTermsOf s with _ | ⟨t1, _ | ⟨t2, rest⟩⟩
    · rw [hterm] at ht
      simp at ht
    · rw [hterm] at h13 ht
      simp only [List.all_cons, List.all_nil, Bool.and_true] at h13
      simp only [List.mem_singleton] at ht
      rw [ht]
      exact h13
    · rw [hterm] at h13 ht
      simp only [List.all_cons, List.all_nil, Bool.and_true,
        Bool.and_eq_true] at h13
      have hall : ((t1 :: t2 :: rest).all fun t => termCond t e) = true := by
        simpa using h13
      exact List.all_eq_true.mp hall t ht

/-! ### Helper lemmas: keyed lookup and keyed update -/

theorem findById_some_id (store : Store) (id : String) (e : Event)
    (h : findById store id = some e) : e.id = id := by
  have := List.find?_some h
  simpa [beq_iff_eq] using this

theorem findById_cons (a : Event) (rest : Store) (id : String) :
    findById (a :: rest) id =
      if a.id == id then some a else findById rest id := by
  cases hp : a.id == id <;> simp [findById, List.find?, hp]

theorem setEvent_cons (a : Event) (rest : Store) (e' : Event) :
    setEvent (a :: rest) e' =
      (if a.id == e'.id then e' else a) :: setEvent rest e' := rfl

theorem findById_setEvent (store : Store) (e' : Event) :
    ∀ id, (∃ x, findById store id = some x) → e'.id = id →
      findById (setEvent store e') id = some e' := by
  induction store with
  | nil => intro id hx _; simp [findById] at hx
  | cons a rest ih =>
    intro id hx hid
    rw [setEvent_cons, findById_cons]
    by_cases ha : a.id = id
    · have h1 : (a.id == e'.id) = true := by simp [ha, hid]
      rw [if_pos h1]
      have h2 : (e'.id == id) = true := by simp [hid]
      rw [if_pos h2]
    · have h1 : ¬((a.id == e'.id) = true) := by simp [hid]; exact ha
      rw [if_neg h1]
      have h2 : ¬((a.id == id) = true) := by simp; exact ha
      rw [if_neg h2]
      rw [findById_cons] at hx
      rw [if_neg h2] at hx
      exact ih id hx hid

theorem mem_setEvent (store : Store) (e' x : Event)
    (h : x ∈ setEvent store e') : x = e' ∨ x ∈ store := by
  simp only [setEvent, List.mem_map] at h
  obtain ⟨y, hy, hxy⟩ := h
  by_cases hid : (y.id == e'.id) = true
  · rw [if_pos hid] at hxy
    exact Or.inl hxy.symm
  · rw [if_neg hid] at hxy
    exact Or.inr (hxy ▸ hy)

theorem eq_of_mem_setEvent_id (store : Store) (e' x : Event)
    (h : x ∈ setEvent store e') (hid : x.id = e'.id) : x = e' := by
  simp only [setEvent, List.mem_map] at h
  obtain ⟨y, _, hxy⟩ := h
  by_cases hbeq : (y.id == e'.id) = true
  · rw [if_pos hbeq] at hxy
    exact hxy.symm
  · rw [if_neg hbeq] at hxy
    subst hxy
    exact absurd (by simp [hid]) hbeq

/-! ### Helper lemmas: update success decomposition -/

theorem update_ok_spec (store : Store) (id : String) (d : UpdateEventRequest)
    (org : String) (now : Int) (e' : Event) (store' : Store)
    (h : update store id d org now = Except.ok (e', store')) :
    ∃ e0 slugOpt, findById store id = some e0 ∧ e0.organizerId = org ∧
      e' = applyUpdateData e0 d now slugOpt ∧ store' = setEvent store e' ∧
      ((d.title = none ∨ d.title = some e0.title) → slugOpt = none) ∧
      (∀ t, d.title = some t → t ≠ e0.title → slugOpt = some (generateSlug t)) := by
  unfold update at h
  cases hf : findById store id with
  | none => rw [hf] at h; exact absurd h (by simp)
  | some e0 =>
    rw [hf] at h
    dsimp only at h
    by_cases horg : e0.organizerId = org
    · have hbne : (e0.organizerId != org) = false := by simp [horg]
      rw [hbne] at h
      simp only [Bool.false_eq_true, if_false] at h
      cases hdt : d.title with
      | none =>
        rw [hdt] at h
        dsimp only at h
        simp only [Except.ok.injEq, Prod.mk.injEq] at h
        obtain ⟨he, hs⟩ := h
        exact ⟨e0, none, rfl, horg, he.symm, by rw [← he, ← hs],
          fun _ => rfl, fun t ht => by simp [hdt] at ht⟩
      | some t =>
        rw [hdt] at h
        dsimp only at h
        by_cases htitle : t = e0.title
        · have hbnet : (t != e0.title) = false := by simp [htitle]
          rw [hbnet] at h
          simp only [Bool.false_eq_true, if_false, Except.ok.injEq,
            Prod.mk.injEq] at h
          obtain ⟨he, hs⟩ := h
          exact ⟨e0, none, rfl, horg, he.symm, by rw [← he, ← hs],
            fun _ => rfl, fun t' ht' hne => by
              simp only [Option.some.injEq] at ht'
              exact absurd (ht' ▸ htitle) hne⟩
        · have hbnet : (t != e0.title) = true := by simp [htitle]
          rw [hbnet] at h
          simp only [if_true] at h
          cases hconf : store.any
              (fun e => e.slug == generateSlug t && e.id != id) with
          | true => rw [hconf] at h; simp at h
          | false =>
            rw [hconf] at h
            simp only [Bool.false_eq_true, if_false, Except.ok.injEq,
              Prod.mk.injEq] at h
            obtain ⟨he, hs⟩ := h
            refine ⟨e0, some (generateSlug t), rfl, horg, he.symm,
              by rw [← he, ← hs], ?_, ?_⟩
            · intro hcase
              rcases hcase with hc | hc
              · simp at hc
              · simp only [Option.some.injEq] at hc
                exact absurd hc htitle
            · intro t' ht' _
              simp only [Option.some.injEq] at ht'
              rw [ht']
    · have hbne : (e0.organizerId != org) = true := by simp [horg]
      rw [hbne] at h
      simp at h

theorem applyUpdateData_id (e : Event) (d : UpdateEventRequest) (now : Int)
    (slugOpt : Option String) : (applyUpdateData e d now slugOpt).id = e.id := by
  simp [applyUpdateData]

/-! ### Concrete fixtures used by witnesses and counterexamples -/

/-- A virtual location fixture. -/
def loc0 : Location := Location.virtual "https://meet.example" none

/-- An images fixture. -/
def imgs0 : EventImages :=
  { thumbnail := "https://img.example/t.png"
    banner := "https://img.example/b.png"
    gallery := none }

/-- A draft, private event owned by organizer `org1`. -/
def evA : Event :=
  { id := "e1"
    slug := "tech-conference-2025"
    title := "Tech Conference 2025"
    description := "A technology conference"
    excerpt := none
    startDateTime := 0
    endDateTime := 10
    timezone := "UTC"
    location := loc0
    capacity := none
    currentAttendees := 0
    status := EventStatus.draft
    visibility := Visibility.privateV
    organizerId := "org1"
    categoryId := none
    price := none
    images := imgs0
    metadata := []
    version := 1
    createdAt := 0
    updatedAt := 0
    publishedAt := none }

/-! ### C1: write-access resolution -/

/-- The spec's write-access rule: an admin is always allowed; any other
caller is allowed exactly when they are the event's organizer and hold
role organizer or admin. -/
def allowedWriteSpec (e : Event) (userId : String) (role : Role) : Bool :=
  role == Role.admin ||
    (e.organizerId == userId && (role == Role.organizer || role == Role.admin))

/-- C1: for every write operation (update, delete, publish): a missing
event yields NOT_FOUND; on an existing event the operation succeeds
exactly under `allowedWriteSpec` (admin always; otherwise organizer of
the event with role organizer or admin — role `user` never), and every
denial on an existing event is FORBIDDEN, which is a different error
code from NOT_FOUND. -/
theorem claim_C1_write_access (store : Store) (eid uid : String)
    (role : Role) (op : Operation)
    (hop : op = Operation.update ∨ op = Operation.delete ∨ op = Operation.publish) :
    (findById store eid = none →
      verifyEventAccess store eid uid role op = Except.error ErrorCode.NOT_FOUND) ∧
    (∀ e, findById store eid = some e →
      ((allowedWriteSpec e uid role = true →
        verifyEventAccess store eid uid role op = Except.ok e) ∧
      (allowedWriteSpec e uid role = false →
        verifyEventAccess store eid uid role op = Except.error ErrorCode.FORBIDDEN))) ∧
    ErrorCode.FORBIDDEN ≠ ErrorCode.NOT_FOUND := by
  refine ⟨?_, ?_, by simp⟩
  · intro hf
    unfold verifyEventAccess
    rw [hf]
  · intro e hf
    unfold verifyEventAccess
    rw [hf]
    dsimp only
    rcases hop with hop | hop | hop <;> subst hop <;>
      cases role <;>
        by_cases ho : e.organizerId = uid <;>
          simp [allowedWriteSpec, ho]

/-- C1 witness: the owner of a draft event, holding role `user`, is
refused an update with FORBIDDEN. -/
theorem claim_C1_witness :
    verifyEventAccess [evA] "e1" "org1" Role.user Operation.update =
      Except.error ErrorCode.FORBIDDEN := by
  have h := claim_C1_write_access [evA] "e1" "org1" Role.user
    Operation.update (Or.inl rfl)
  exact (h.2.1 evA (by rfl)).2 (by decide)

/-! ### C2: single-event read resolution -/

/-- The spec's read-access rule for a single event fetch, over the
optional caller: admins pass; public published events pass for anyone;
the organizer passes; everything else is denied. -/
def allowedReadSpec (e : Event) (caller : Option Caller) : Bool :=
  (match caller with
   | some c => c.role == Role.admin || e.organizerId == c.userId
   | none => false) ||
    (e.visibility == Visibility.publicV && e.status == EventStatus.published)

/-- C2: on the single-event GET route: a missing event yields NOT_FOUND;
an admin reads any existing event; anyone (anonymous included) reads a
public published event; the organizer reads their event regardless of
status and visibility; every other read is refused with exactly the
NOT_FOUND error that a missing event produces.  The hypothesis that no
stored event has an empty organizer id reflects the ids being generated
UUIDs; the anonymous caller is represented in the route by the empty
user id. -/
theorem claim_C2_read_access (store : Store) (eid : String)
    (caller : Option Caller) (hwf : ∀ x ∈ store, x.organizerId ≠ "") :
    (findById store eid = none →
      getEventRoute store eid caller = Except.error ErrorCode.NOT_FOUND) ∧
    (∀ e, findById store eid = some e →
      (∀ c, caller = some c → c.role = Role.admin →
        getEventRoute store eid caller = Except.ok e) ∧
      (e.visibility = Visibility.publicV → e.status = EventStatus.published →
        getEventRoute store eid caller = Except.ok e) ∧
      (∀ c, caller = some c → e.organizerId = c.userId →
        getEventRoute store eid caller = Except.ok e) ∧
      (allowedReadSpec e caller = false →
        getEventRoute store eid caller = Except.error ErrorCode.NOT_FOUND)) := by
  constructor
  · intro hf
    unfold getEventRoute verifyEventAccess
    rw [hf]
  · intro e hf
    have hmem : e ∈ store := by
      have := List.mem_of_find?_eq_some hf
      exact this
    have horg : e.organizerId ≠ "" := hwf e hmem
    unfold getEventRoute verifyEventAccess
    rw [hf]
    dsimp only
    cases caller with
    | none =>
      refine ⟨?_, ?_, ?_, ?_⟩
      · intro c hc
        cases hc
      · intro hv hs
        simp [hv, hs]
      · intro c hc
        cases hc
      · intro hd
        simp only [allowedReadSpec] at hd
        simp only [Option.map_none, Option.getD_none] at *
        by_cases hv : e.visibility = Visibility.publicV ∧
            e.status = EventStatus.published
        · exfalso
          simp [hv.1, hv.2] at hd
        · have hbeq : (e.visibility == Visibility.publicV &&
              e.status == EventStatus.published) = false := by
            rcases (not_and_or.mp hv) with h' | h' <;> simp [h']
          simp only [hbeq, Bool.false_eq_true, if_false]
          have horg' : (e.organizerId == "") = false := by
            simp [horg]
          simp [horg']
    | some c =>
      cases hr : c.role with
      | admin =>
        refine ⟨?_, ?_, ?_, ?_⟩
        · intro c' hc' _
          simp [hr]
        · intro _ _
          simp [hr]
        · intro c' hc' _
          simp [hr]
        · intro hd
          simp [allowedReadSpec, hr] at hd
      | user =>
        refine ⟨?_, ?_, ?_, ?_⟩
        · intro c' hc' hrole
          cases hc'
          rw [hr] at hrole
          cases hrole
        · intro hv hs
          simp [hr, hv, hs]
        · intro c' hc' hown
          cases hc'
          by_cases hv : e.visibility = Visibility.publicV ∧
              e.status = EventStatus.published
          · simp [hr, hv.1, hv.2]
          · have hbeq : (e.visibility == Visibility.publicV &&
                e.status == EventStatus.published) = false := by
              rcases (not_and_or.mp hv) with h' | h' <;> simp [h']
            simp [hr, hbeq, hown]
        · intro hd
          simp only [allowedReadSpec, hr] at hd
          simp only [Bool.or_eq_false_iff, Bool.and_eq_false_iff] at hd
          obtain ⟨hd1, hd2⟩ := hd
          simp only [beq_eq_false_iff_ne, ne_eq] at hd1
          have hbeq : (e.visibility == Visibility.publicV &&
              e.status == EventStatus.published) = false := by
            rcases hd2 with h' | h' <;> simp [h']
          have hown : (e.organizerId == c.userId) = false := by
            simp
            exact hd1.2
          simp [hr, hbeq, hown]
      | organizer =>
        refine ⟨?_, ?_, ?_, ?_⟩
        · intro c' hc' hrole
          cases hc'
          rw [hr] at hrole
          cases hrole
        · intro hv hs
          simp [hr, hv, hs]
        · intro c' hc' hown
          cases hc'
          by_cases hv : e.visibility = Visibility.publicV ∧
              e.status = EventStatus.published
          · simp [hr, hv.1, hv.2]
          · have hbeq : (e.visibility == Visibility.publicV &&
                e.status == EventStatus.published) = false := by
              rcases (not_and_or.mp hv) with h' | h' <;> simp [h']
            simp [hr, hbeq, hown]
        · intro hd
          simp only [allowedReadSpec, hr] at hd
          simp only [Bool.or_eq_false_iff, Bool.and_eq_false_iff] at hd
          obtain ⟨hd1, hd2⟩ := hd
          simp only [beq_eq_false_iff_ne, ne_eq] at hd1
          have hbeq : (e.visibility == Visibility.publicV &&
              e.status == EventStatus.published) = false := by
            rcases hd2 with h' | h' <;> simp [h']
          have hown : (e.organizerId == c.userId) = false := by
            simp
            exact hd1.2
          simp [hr, hbeq, hown]

/-- C2 witness: a stranger with role `user` reading a private draft event
gets the same NOT_FOUND a missing event would produce. -/
theorem claim_C2_witness :
    getEventRoute [evA] "e1" (some { userId := "stranger", role := Role.user }) =
      Except.error ErrorCode.NOT_FOUND := by
  have h := claim_C2_read_access [evA] "e1"
    (some { userId := "stranger", role := Role.user }) (by decide)
  exact ((h.2 evA (by rfl)).2.2.2) (by decide)

/-! ### C3: role constraints on listings -/

/-- C3: `findManyWithAuthorization` forces anonymous and `user` callers
to published public events (overriding any requested status/visibility
filter) while every other supplied filter still applies; forces
organizers to their own events while every other supplied filter still
applies; and leaves admins unconstrained. -/
theorem claim_C3_list_constraint (store : Store) (params : EventQueryParams)
    (userId : Option String) (userRole : Option Role) :
    ((userId = none ∨ userId = some "" ∨ userRole = none ∨
        userRole = some Role.user) →
      ∀ e ∈ (findManyWithAuthorization store params userId userRole).data,
        e.status = EventStatus.published ∧
        e.visibility = Visibility.publicV ∧
        satisfiesFilters
          { params with status := some EventStatus.published,
                        visibility := some Visibility.publicV } e) ∧
    (∀ uid, userId = some uid → uid ≠ "" → userRole = some Role.organizer →
      ∀ e ∈ (findManyWithAuthorization store params userId userRole).data,
        e.organizerId = uid ∧
        satisfiesFilters { params with organizerId := some uid } e) ∧
    (∀ uid, userId = some uid → uid ≠ "" → userRole = some Role.admin →
      findManyWithAuthorization store params userId userRole =
        findMany store params) := by
  refine ⟨?_, ?_, ?_⟩
  · intro hcase e he
    have hc : findManyWithAuthorization store params userId userRole =
        findMany store
          { params with status := some EventStatus.published,
                        visibility := some Visibility.publicV } := by
      unfold findManyWithAuthorization
      rcases hcase with h | h | h | h
      · subst h
        cases userRole <;> rfl
      · subst h
        cases userRole with
        | none => rfl
        | some r => simp
      · subst h
        cases userId <;> rfl
      · subst h
        cases userId with
        | none => rfl
        | some uid =>
          by_cases hu : (uid == "") = true
          · simp [hu]
          · simp only [Bool.not_eq_true] at hu
            simp [hu]
    rw [hc] at he
    have hw := whereClause_of_mem_data _ _ _ he
    have hsat := satisfiesFilters_of_whereClause _ _ hw
    exact ⟨hsat.1 _ rfl, hsat.2.2.2.1 _ rfl, hsat⟩
  · intro uid huid hne hrole e he
    have hc : findManyWithAuthorization store params userId userRole =
        findMany store { params with organizerId := some uid } := by
      unfold findManyWithAuthorization
      subst huid
      subst hrole
      have hu : (uid == "") = false := by
        simp [hne]
      simp [hu]
    rw [hc] at he
    have hw := whereClause_of_mem_data _ _ _ he
    have hsat := satisfiesFilters_of_whereClause _ _ hw
    exact ⟨hsat.2.1 uid rfl, hsat⟩
  · intro uid huid hne hrole
    unfold findManyWithAuthorization
    subst huid
    subst hrole
    have hu : (uid == "") = false := by
      simp [hne]
    simp [hu]

/-- C3 witness: an admin caller's listing is exactly the unconstrained
listing. -/
theorem claim_C3_witness :
    findManyWithAuthorization [evA] {} (some "admin1") (some Role.admin) =
      findMany [evA] {} := by
  have h := claim_C3_list_constraint [evA] {} (some "admin1") (some Role.admin)
  exact h.2.2 "admin1" rfl (by decide) rfl

/-! ### C7: conjunctive filter composition -/

/-- The number of supplied filter parameters (pagination and sorting do
not count as filters). -/
def countFilters (p : EventQueryParams) : Nat :=
  (if p.status.isSome then 1 else 0) +
  (if p.category.isSome then 1 else 0) +
  (if p.organizerId.isSome then 1 else 0) +
  (if p.visibility.isSome then 1 else 0) +
  (if p.fromDate.isSome then 1 else 0) +
  (if p.toDate.isSome then 1 else 0) +
  (if p.minCapacity.isSome then 1 else 0) +
  (if p.maxCapacity.isSome then 1 else 0) +
  (if p.priceType.isSome then 1 else 0) +
  (if p.minPrice.isSome then 1 else 0) +
  (if p.maxPrice.isSome then 1 else 0) +
  (if p.hasNFT.isSome then 1 else 0) +
  (if p.search.isSome then 1 else 0)

theorem noFilters_all_none (p : EventQueryParams) (h : countFilters p = 0) :
    p.status = none ∧ p.category = none ∧ p.organizerId = none ∧
    p.visibility = none ∧ p.fromDate = none ∧ p.toDate = none ∧
    p.minCapacity = none ∧ p.maxCapacity = none ∧ p.priceType = none ∧
    p.minPrice = none ∧ p.maxPrice = none ∧ p.hasNFT = none ∧
    p.search = none := by
  unfold countFilters at h
  refine ⟨?_, ?_, ?_, ?_, ?_, ?_, ?_, ?_, ?_, ?_, ?_, ?_, ?_⟩ <;>
    [skip; skip; skip; skip; skip; skip; skip; skip; skip; skip; skip;
      skip; skip] <;>
    first
    | (cases hq : p.status with
       | none => rfl
       | some v => rw [hq] at h; simp at h)
    | (cases hq : p.category with
       | none => rfl
       | some v => rw [hq] at h; simp at h)
    | (cases hq : p.organizerId with
       | none => rfl
       | some v => rw [hq] at h; simp at h)
    | (cases hq : p.visibility with
       | none => rfl
       | some v => rw [hq] at h; simp at h)
    | (cases hq : p.fromDate with
       | none => rfl
       | some v => rw [hq] at h; simp at h)
    | (cases hq : p.toDate with
       | none => rfl
       | some v => rw [hq] at h; simp at h)
    | (cases hq : p.minCapacity with
       | none => rfl
       | some v => rw [hq] at h; simp at h)
    | (cases hq : p.maxCapacity with
       | none => rfl
       | some v => rw [hq] at h; simp at h)
    | (cases hq : p.priceType with
       | none => rfl
       | some v => rw [hq] at h; simp at h)
    | (cases hq : p.minPrice with
       | none => rfl
       | some v => rw [hq] at h; simp at h)
    | (cases hq : p.maxPrice with
       | none => rfl
       | some v => rw [hq] at h; simp at h)
    | (cases hq : p.hasNFT with
       | none => rfl
       | some v => rw [hq] at h; simp at h)
    | (cases hq : p.search with
       | none => rfl
       | some v => rw [hq] at h; simp at h)

theorem buildFilterConditions_of_noFilters (p : EventQueryParams)
    (h : countFilters p = 0) : buildFilterConditions p = [] := by
  obtain ⟨h1, h2, h3, h4, h5, h6, h7, h8, h9, h10, h11, h12, h13⟩ :=
    noFilters_all_none p h
  simp [buildFilterConditions, statusConds, organizerConds, categoryConds,
    visibilityConds, fromDateConds, toDateConds, minCapacityConds,
    maxCapacityConds, priceTypeConds, minPriceConds, maxPriceConds,
    hasNFTConds, searchConds, h1, h2, h3, h4, h5, h6, h7, h8, h9, h10,
    h11, h12, h13]

/-- C7: with two or more filters supplied, every event of the returned
page satisfies each supplied filter independently (conjunctive
composition); the returned total is the count of the rows matching the
same WHERE clause that produced the page; and a query with no filters
leaves the row set unrestricted. -/
theorem claim_C7_filter_conjunction (store : Store)
    (params : EventQueryParams) (_h2 : 2 ≤ countFilters params) :
    (∀ e ∈ (findMany store params).data, satisfiesFilters params e) ∧
    (findMany store params).total =
      (store.filter (whereClause params)).length ∧
    (∀ e ∈ (findMany store params).data,
      e ∈ store.filter (whereClause params)) ∧
    (∀ q : EventQueryParams, countFilters q = 0 →
      store.filter (whereClause q) = store) := by
  refine ⟨?_, ?_, ?_, ?_⟩
  · intro e he
    exact satisfiesFilters_of_whereClause _ _ (whereClause_of_mem_data _ _ _ he)
  · rfl
  · intro e he
    exact mem_findMany_data _ _ _ he
  · intro q hq
    have hcond := buildFilterConditions_of_noFilters q hq
    apply List.filter_eq_self.mpr
    intro a _
    simp [whereClause, hcond]

/-- C7 witness: a query filtering on status and visibility at once. -/
theorem claim_C7_witness :
    (∀ e ∈ (findMany [evA]
        { status := some EventStatus.draft,
          visibility := some Visibility.privateV }).data,
      satisfiesFilters
        { status := some EventStatus.draft,
          visibility := some Visibility.privateV } e) ∧
    (findMany [evA]
        { status := some EventStatus.draft,
          visibility := some Visibility.privateV }).total =
      ([evA].filter (whereClause
        { status := some EventStatus.draft,
          visibility := some Visibility.privateV })).length := by
  have h := claim_C7_filter_conjunction [evA]
    { status := some EventStatus.draft,
      visibility := some Visibility.privateV } (by decide)
  exact ⟨h.1, h.2.1⟩

/-! ### C4: version monotonicity and update frame -/

theorem applyUpdates_invariants :
    ∀ (reqs : List (UpdateEventRequest × Int)) (store store' : Store)
      (id org : String),
      applyUpdates store id reqs org = Except.ok store' →
      ∀ e0, findById store id = some e0 →
        ∃ e1, findById store' id = some e1 ∧
          e1.version = e0.version + reqs.length ∧
          e1.createdAt = e0.createdAt ∧
          e1.organizerId = e0.organizerId := by
  intro reqs
  induction reqs with
  | nil =>
    intro store store' id org h e0 h0
    unfold applyUpdates at h
    simp only [Except.ok.injEq] at h
    subst h
    exact ⟨e0, h0, by simp, rfl, rfl⟩
  | cons pr rest ih =>
    obtain ⟨d, now⟩ := pr
    intro store store' id org h e0 h0
    unfold applyUpdates at h
    cases hu : update store id d org now with
    | error err => rw [hu] at h; simp at h
    | ok pair =>
      obtain ⟨e'', store''⟩ := pair
      rw [hu] at h
      dsimp only at h
      obtain ⟨e0', slugOpt, hf0, _, heq, hst, _, _⟩ :=
        update_ok_spec store id d org now e'' store'' hu
      rw [h0] at hf0
      injection hf0 with hf0
      subst hf0
      have hid0 : e0.id = id := findById_some_id _ _ _ h0
      have hid : e''.id = id := by
        rw [heq, applyUpdateData_id]
        exact hid0
      have hf'' : findById store'' id = some e'' := by
        rw [hst]
        exact findById_setEvent store e'' id ⟨e0, h0⟩ hid
      obtain ⟨e1, h1, hv, hc, ho⟩ := ih store'' store' id org h e'' hf''
      have hver : e''.version = e0.version + 1 := by
        rw [heq]
        simp [applyUpdateData]
      refine ⟨e1, h1, ?_, ?_, ?_⟩
      · rw [hv, hver, List.length_cons]
        push_cast
        ring
      · rw [hc, heq]
        simp [applyUpdateData]
      · rw [ho, heq]
        simp [applyUpdateData]

/-- C4: over any sequence of N successful updates the version grows by
exactly N (the payload has no version field, so a caller can never set
it); `createdAt` and `organizerId` never change; and every payload field
absent from a single update leaves the corresponding stored field (and
the slug, when the title is absent) unchanged. -/
theorem claim_C4_version_and_frame :
    (∀ (store store' : Store) (id org : String)
        (reqs : List (UpdateEventRequest × Int)) (e0 e1 : Event),
      applyUpdates store id reqs org = Except.ok store' →
      findById store id = some e0 → findById store' id = some e1 →
      e1.version = e0.version + reqs.length ∧
      e1.createdAt = e0.createdAt ∧ e1.organizerId = e0.organizerId) ∧
    (∀ (store store' : Store) (id org : String) (d : UpdateEventRequest)
        (now : Int) (e' e0 : Event),
      update store id d org now = Except.ok (e', store') →
      findById store id = some e0 →
      e'.createdAt = e0.createdAt ∧ e'.organizerId = e0.organizerId ∧
      e'.id = e0.id ∧ e'.excerpt = e0.excerpt ∧
      e'.currentAttendees = e0.currentAttendees ∧
      (d.title = none → e'.title = e0.title ∧ e'.slug = e0.slug) ∧
      (d.description = none → e'.description = e0.description) ∧
      (d.timezone = none → e'.timezone = e0.timezone) ∧
      (d.location = none → e'.location = e0.location) ∧
      (d.capacity = none → e'.capacity = e0.capacity) ∧
      (d.visibility = none → e'.visibility = e0.visibility) ∧
      (d.price = none → e'.price = e0.price) ∧
      (d.images = none → e'.images = e0.images) ∧
      (d.categoryId = none → e'.categoryId = e0.categoryId) ∧
      (d.nftMetadata = none → e'.metadata = e0.metadata) ∧
      (d.status = none → e'.status = e0.status) ∧
      (d.startDateTime = none → e'.startDateTime = e0.startDateTime) ∧
      (d.endDateTime = none → e'.endDateTime = e0.endDateTime)) := by
  constructor
  · intro store store' id org reqs e0 e1 h h0 h1
    obtain ⟨e1', h1', hv, hc, ho⟩ :=
      applyUpdates_invariants reqs store store' id org h e0 h0
    rw [h1] at h1'
    injection h1' with h1'
    subst h1'
    exact ⟨hv, hc, ho⟩
  · intro store store' id org d now e' e0 h h0
    obtain ⟨e0', slugOpt, hf0, _, heq, _, hslug, _⟩ :=
      update_ok_spec store id d org now e' store' h
    rw [h0] at hf0
    injection hf0 with hf0
    subst hf0
    subst heq
    refine ⟨by simp [applyUpdateData], by simp [applyUpdateData],
      by simp [applyUpdateData], by simp [applyUpdateData],
      by simp [applyUpdateData], ?_, ?_, ?_, ?_, ?_, ?_, ?_, ?_, ?_, ?_,
      ?_, ?_, ?_⟩
    · intro hnone
      have hs := hslug (Or.inl hnone)
      subst hs
      simp [applyUpdateData, hnone]
    · intro hnone
      simp [applyUpdateData, hnone]
    · intro hnone
      simp [applyUpdateData, hnone]
    · intro hnone
      simp [applyUpdateData, hnone]
    · intro hnone
      simp [applyUpdateData, hnone]
    · intro hnone
      simp [applyUpdateData, hnone]
    · intro hnone
      simp [applyUpdateData, hnone]
    · intro hnone
      simp [applyUpdateData, hnone]
    · intro hnone
      simp [applyUpdateData, hnone]
    · intro hnone
      simp [applyUpdateData, hnone]
    · intro hnone
      simp [applyUpdateData, hnone]
    · intro hnone
      simp [applyUpdateData, hnone]
    · intro hnone
      simp [applyUpdateData, hnone]

/-- An update payload that only publishes the event. -/
def updPublish : UpdateEventRequest := { status := some EventStatus.published }

/-- An update payload that only rewrites the description. -/
def updDesc : UpdateEventRequest := { description := some "New description" }

/-- Two successive update requests, at times 5 and 7. -/
def c4Reqs : List (UpdateEventRequest × Int) := [(updPublish, 5), (updDesc, 7)]

/-- The store produced by running the two updates on `evA`. -/
def c4Store : Store :=
  match applyUpdates [evA] "e1" c4Reqs "org1" with
  | Except.ok s => s
  | Except.error _ => []

/-- The stored event after the two updates. -/
def c4Event : Event := (findById c4Store "e1").getD evA

/-- C4 witness: two successful updates bump the version from 1 to 3 and
leave `createdAt` and `organizerId` untouched. -/
theorem claim_C4_witness :
    c4Event.version = evA.version + (c4Reqs.length : Int) ∧
    c4Event.createdAt = evA.createdAt ∧
    c4Event.organizerId = evA.organizerId := by
  have h := claim_C4_version_and_frame.1 [evA] c4Store "e1" "org1" c4Reqs
    evA c4Event (by rfl) (by rfl) (by rfl)
  exact h

/-! ### C5: publishedAt semantics -/

/-- C5 (amended): a successful update sets `publishedAt` to the current
time exactly when the payload status is `published` and the stored
status is not; on every such transition — including a re-transition into
`published` after the event has left that status — the previous value is
overwritten; updates without such a transition leave it unchanged. -/
theorem claim_C5_publishedAt_amended (store store' : Store) (id org : String)
    (d : UpdateEventRequest) (now : Int) (e' e0 : Event)
    (h : update store id d org now = Except.ok (e', store'))
    (h0 : findById store id = some e0) :
    e'.publishedAt =
      if d.status = some EventStatus.published ∧
          e0.status ≠ EventStatus.published then
        some now
      else
        e0.publishedAt := by
  obtain ⟨e0', slugOpt, hf0, _, heq, _, _, _⟩ :=
    update_ok_spec store id d org now e' store' h
  rw [h0] at hf0
  injection hf0 with hf0
  subst hf0
  subst heq
  simp only [applyUpdateData]
  by_cases hc : d.status = some EventStatus.published ∧
      e0.status ≠ EventStatus.published
  · rw [if_pos hc]
    have hb : (d.status == some EventStatus.published &&
        e0.status != EventStatus.published) = true := by
      simp [hc.1, hc.2]
    simp [hb]
  · rw [if_neg hc]
    have hb : (d.status == some EventStatus.published &&
        e0.status != EventStatus.published) = false := by
      rcases not_and_or.mp hc with h' | h'
      · simp [h']
      · simp only [not_not] at h'
        simp [h']
    simp [hb]

/-- An update payload that moves the event back to draft. -/
def updToDraft : UpdateEventRequest := { status := some EventStatus.draft }

/-- Store after publishing `evA` at time 100. -/
def c5Store1 : Store :=
  match update [evA] "e1" updPublish "org1" 100 with
  | Except.ok (_, s) => s
  | Except.error _ => []

/-- Store after then un-publishing at time 200. -/
def c5Store2 : Store :=
  match update c5Store1 "e1" updToDraft "org1" 200 with
  | Except.ok (_, s) => s
  | Except.error _ => []

/-- Store after re-publishing at time 300. -/
def c5Store3 : Store :=
  match update c5Store2 "e1" updPublish "org1" 300 with
  | Except.ok (_, s) => s
  | Except.error _ => []

/-- C5 counterexample: publish at time 100 sets `publishedAt = 100`;
after moving back to draft and re-publishing at time 300 the stored
`publishedAt` is 300 — it was set a second time and overwritten,
refuting "set at most once and never overwritten, including a later
re-transition into published". -/
theorem claim_C5_counterexample :
    (findById c5Store1 "e1").map Event.publishedAt = some (some 100) ∧
    (findById c5Store2 "e1").map Event.publishedAt = some (some 100) ∧
    (findById c5Store3 "e1").map Event.publishedAt = some (some 300) ∧
    ((300 : Int) ≠ 100) := by
  exact ⟨by rfl, by rfl, by rfl, by decide⟩

/-- The updated event returned by publishing `evA` at time 5. -/
def c5WEvent : Event :=
  match update [evA] "e1" updPublish "org1" 5 with
  | Except.ok (e, _) => e
  | Except.error _ => evA

/-- The store produced by publishing `evA` at time 5. -/
def c5WStore : Store :=
  match update [evA] "e1" updPublish "org1" 5 with
  | Except.ok (_, s) => s
  | Except.error _ => []

/-- C5 witness: publishing a draft event at time 5 yields
`publishedAt = some 5` per the amended rule. -/
theorem claim_C5_witness :
    c5WEvent.publishedAt =
      if updPublish.status = some EventStatus.published ∧
          evA.status ≠ EventStatus.published then
        some (5 : Int)
      else
        evA.publishedAt := by
  exact claim_C5_publishedAt_amended [evA] c5WStore "e1" "org1" updPublish 5
    c5WEvent evA (by rfl) (by rfl)

/-! ### C6: soft delete -/

/-- C6: a successful delete never removes the row: the store keeps its
length, the row reappears under its id with status `archived`, a fresh
`updatedAt`, and every other field (version included) unchanged; and the
event is absent from any listing filtered to `status = published`. -/
theorem claim_C6_soft_delete (store store' : Store) (id org : String)
    (now : Int) (h : deleteEvent store id org now = Except.ok store') :
    ∃ e0, findById store id = some e0 ∧
      store' = setEvent store
        { e0 with status := EventStatus.archived, updatedAt := now } ∧
      findById store' id = some
        { e0 with status := EventStatus.archived, updatedAt := now } ∧
      store'.length = store.length ∧
      (∀ params : EventQueryParams,
        params.status = some EventStatus.published →
        ∀ x ∈ (findMany store' params).data, x.id ≠ id) := by
  unfold deleteEvent at h
  cases hf : findById store id with
  | none => rw [hf] at h; simp at h
  | some e0 =>
    rw [hf] at h
    dsimp only at h
    by_cases horg : e0.organizerId = org
    · have hbne : (e0.organizerId != org) = false := by simp [horg]
      rw [hbne] at h
      simp only [Bool.false_eq_true, if_false, Except.ok.injEq] at h
      subst h
      have hid0 : e0.id = id := findById_some_id _ _ _ hf
      have hidA : ({ e0 with status := EventStatus.archived, updatedAt := now } : Event).id = id := hid0
      have hf' : findById
          (setEvent store
            { e0 with status := EventStatus.archived, updatedAt := now }) id =
          some { e0 with status := EventStatus.archived, updatedAt := now } :=
        findById_setEvent store _ id ⟨e0, hf⟩ hidA
      refine ⟨e0, rfl, rfl, hf', by simp [setEvent], ?_⟩
      intro params hst x hx
      intro hxid
      have hxf := mem_findMany_data _ _ _ hx
      obtain ⟨hxmem, hxw⟩ := List.mem_filter.mp hxf
      have hxsat := satisfiesFilters_of_whereClause _ _ hxw
      have hxpub : x.status = EventStatus.published := hxsat.1 _ hst
      have hxarch : x = { e0 with status := EventStatus.archived, updatedAt := now } := by
        apply eq_of_mem_setEvent_id store _ x hxmem
        rw [hxid]
        exact hidA.symm
      rw [hxarch] at hxpub
      simp at hxpub
    · have hbne : (e0.organizerId != org) = true := by simp [horg]
      rw [hbne] at h
      simp at h

/-- The store produced by archiving `evA` at time 9. -/
def c6Store : Store :=
  match deleteEvent [evA] "e1" "org1" 9 with
  | Except.ok s => s
  | Except.error _ => []

/-- C6 witness: archiving `evA` keeps the row, with only status and
`updatedAt` changed. -/
theorem claim_C6_witness :
    findById c6Store "e1" =
      some { evA with status := EventStatus.archived, updatedAt := 9 } := by
  obtain ⟨e0, hf, _, hf', _, _⟩ :=
    claim_C6_soft_delete [evA] c6Store "e1" "org1" 9 (by rfl)
  have he : findById [evA] "e1" = some evA := by rfl
  rw [he] at hf
  injection hf with hf
  subst hf
  exact hf'

/-! ### C8: multi-term search -/

theorem searchTermsOf_of_trim_nil (s : String) (h : trimChars s.data = []) :
    searchTermsOf s = [] := by
  unfold searchTermsOf
  rw [h]
  rfl

/-- An event whose title contains the terms `alpha` and `beta` but not
the contiguous string `alpha beta`. -/
def evSearch : Event :=
  { evA with id := "s1", slug := "beta-alpha", title := "Beta Alpha",
             description := "some text" }

/-- C8: with a search string of two or more whitespace-separated terms,
every returned event matches each term individually (case-insensitively,
in title, description or excerpt); an event missing any single term is
never returned; and an event can be returned although the full search
string occurs in none of the three fields, so a single-substring match
of the full string is not what is tested. -/
theorem claim_C8_search_conjunction (store : Store)
    (params : EventQueryParams) (s : String) (hs : params.search = some s)
    (hlen : 2 ≤ (searchTermsOf s).length) :
    (∀ e ∈ (findMany store params).data,
      ∀ t ∈ searchTermsOf s, termCond t e = true) ∧
    (∀ e, (∃ t ∈ searchTermsOf s, termCond t e = false) →
      e ∉ (findMany store params).data) ∧
    ((findMany [evSearch] { search := some "alpha beta" }).data = [evSearch] ∧
      likeCI evSearch.title "alpha beta" = false ∧
      likeCI evSearch.description "alpha beta" = false ∧
      evSearch.excerpt = none) := by
  have htrim : trimChars s.data ≠ [] := by
    intro h0
    rw [searchTermsOf_of_trim_nil s h0] at hlen
    simp at hlen
  have hmain : ∀ e ∈ (findMany store params).data,
      ∀ t ∈ searchTermsOf s, termCond t e = true := by
    intro e he t ht
    have hsat := satisfiesFilters_of_whereClause _ _
      (whereClause_of_mem_data _ _ _ he)
    exact hsat.2.2.2.2.2.2.2.2.2.2.2.2.2.2 s hs htrim t ht
  refine ⟨hmain, ?_, ?_, by decide, by decide, rfl⟩
  · rintro e ⟨t, ht, htf⟩ he
    have := hmain e he t ht
    rw [htf] at this
    cases this
  · decide

/-- C8 witness: an event whose fields contain `Alpha` and `Beta`
separately is returned for the search `alpha beta`. -/
theorem claim_C8_witness :
    ∃ e, e ∈ (findMany [evSearch] { search := some "alpha beta" }).data ∧
      termCond "alpha" e = true ∧ termCond "beta" e = true := by
  have h := claim_C8_search_conjunction [evSearch]
    { search := some "alpha beta" } "alpha beta" rfl (by decide)
  refine ⟨evSearch, ?_, ?_, ?_⟩
  · rw [h.2.2.1]
    exact List.mem_singleton.mpr rfl
  · exact h.1 evSearch (by rw [h.2.2.1]; exact List.mem_singleton.mpr rfl)
      "alpha" (by decide)
  · exact h.1 evSearch (by rw [h.2.2.1]; exact List.mem_singleton.mpr rfl)
      "beta" (by decide)

/-! ### C9: slug collisions -/

theorem create_conflict_of_mem_slug (store : Store) (d : CreateEventRequest)
    (org nid : String) (now : Int) (x : Event) (hx : x ∈ store)
    (hslug : x.slug = generateSlug d.title) :
    create store d org nid now = Except.error ErrorCode.CONFLICT := by
  unfold create
  dsimp only
  cases hfind : findBySlug store (generateSlug d.title) with
  | some y => rfl
  | none =>
    exfalso
    have := List.find?_eq_none.mp hfind x hx
    simp [hslug] at this

theorem create_ok_spec (store : Store) (d : CreateEventRequest)
    (org nid : String) (now : Int) (ev : Event) (store' : Store)
    (h : create store d org nid now = Except.ok (ev, store')) :
    ev.slug = generateSlug d.title ∧ store' = store ++ [ev] := by
  unfold create at h
  dsimp only at h
  cases hfind : findBySlug store (generateSlug d.title) with
  | some y => rw [hfind] at h; simp at h
  | none =>
    rw [hfind] at h
    dsimp only at h
    simp only [Except.ok.injEq, Prod.mk.injEq] at h
    obtain ⟨he, hs⟩ := h
    constructor
    · rw [← he]
    · rw [← hs, ← he]

/-- C9: creating an event whose derived slug already exists fails with
CONFLICT (the store is untouched: the error carries no new store);
renaming an event to a title whose slug belongs to a different event
fails with CONFLICT; a no-op title never raises CONFLICT; and a title
change whose derived slug is the event's own current slug never raises
CONFLICT when slugs are unique in the store. -/
theorem claim_C9_slug_collision :
    (∀ (store : Store) (d : CreateEventRequest) (org nid : String)
        (now : Int) (x : Event), x ∈ store →
      x.slug = generateSlug d.title →
      create store d org nid now = Except.error ErrorCode.CONFLICT) ∧
    (∀ (store : Store) (id : String) (d : UpdateEventRequest) (org : String)
        (now : Int) (t : String) (e0 other : Event),
      findById store id = some e0 → e0.organizerId = org →
      d.title = some t → t ≠ e0.title →
      other ∈ store → other.id ≠ id → other.slug = generateSlug t →
      update store id d org now = Except.error ErrorCode.CONFLICT) ∧
    (∀ (store : Store) (id : String) (d : UpdateEventRequest) (org : String)
        (now : Int) (e0 : Event),
      findById store id = some e0 → d.title = some e0.title →
      update store id d org now ≠ Except.error ErrorCode.CONFLICT) ∧
    (∀ (store : Store) (id : String) (d : UpdateEventRequest) (org : String)
        (now : Int) (t : String) (e0 : Event),
      findById store id = some e0 → d.title = some t →
      generateSlug t = e0.slug →
      (∀ x ∈ store, x.slug = e0.slug → x.id = e0.id) →
      update store id d org now ≠ Except.error ErrorCode.CONFLICT) := by
  refine ⟨?_, ?_, ?_, ?_⟩
  · intro store d org nid now x hx hslug
    exact create_conflict_of_mem_slug store d org nid now x hx hslug
  · intro store id d org now t e0 other h0 horg hdt htne hmem hoid hoslug
    unfold update
    rw [h0]
    dsimp only
    have hbne : (e0.organizerId != org) = false := by simp [horg]
    rw [hbne]
    simp only [Bool.false_eq_true, if_false]
    rw [hdt]
    dsimp only
    have hbnet : (t != e0.title) = true := by simp [htne]
    rw [hbnet]
    simp only [if_true]
    have hany : (store.any fun e => e.slug == generateSlug t && e.id != id) =
        true := by
      apply List.any_eq_true.mpr
      exact ⟨other, hmem, by simp [hoslug, hoid]⟩
    rw [hany]
    simp
  · intro store id d org now e0 h0 hdt
    unfold update
    rw [h0]
    dsimp only
    by_cases horg : e0.organizerId = org
    · have hbne : (e0.organizerId != org) = false := by simp [horg]
      rw [hbne]
      simp only [Bool.false_eq_true, if_false]
      rw [hdt]
      dsimp only
      have hbnet : (e0.title != e0.title) = false := by simp
      rw [hbnet]
      simp
    · have hbne : (e0.organizerId != org) = true := by simp [horg]
      rw [hbne]
      simp
  · intro store id d org now t e0 h0 hdt hslug huniq
    unfold update
    rw [h0]
    dsimp only
    by_cases horg : e0.organizerId = org
    · have hbne : (e0.organizerId != org) = false := by simp [horg]
      rw [hbne]
      simp only [Bool.false_eq_true, if_false]
      rw [hdt]
      dsimp only
      by_cases htne : t = e0.title
      · have hbnet : (t != e0.title) = false := by simp [htne]
        rw [hbnet]
        simp
      · have hbnet : (t != e0.title) = true := by simp [htne]
        rw [hbnet]
        simp only [if_true]
        have hid0 : e0.id = id := findById_some_id _ _ _ h0
        have hany : (store.any fun e => e.slug == generateSlug t && e.id != id)
            = false := by
          apply List.any_eq_false.mpr
          intro x hxmem
          by_cases hxs : x.slug = generateSlug t
          · have : x.id = e0.id := huniq x hxmem (by rw [hxs, hslug])
            simp [this, hid0]
          · simp [hxs]
        rw [hany]
        simp
    · have hbne : (e0.organizerId != org) = true := by simp [horg]
      rw [hbne]
      simp

/-- C9 witness: an update that resubmits the event's own title raises no
CONFLICT. -/
theorem claim_C9_witness :
    update [evA] "e1" { title := some "Tech Conference 2025" } "org1" 3 ≠
      Except.error ErrorCode.CONFLICT := by
  exact claim_C9_slug_collision.2.2.1 [evA] "e1"
    { title := some "Tech Conference 2025" } "org1" 3 evA (by rfl) (by rfl)

/-! ### C10: empty processed titles collapse to one slug -/

/-- C10: every title whose processed form is empty derives the constant
slug `untitled-event`; hence any two such titles collide: creating one
and then creating another fails with CONFLICT. -/
theorem claim_C10_untitled_fallback (t1 t2 : String)
    (h1 : slugCore t1 = "") (h2 : slugCore t2 = "") :
    generateSlug t1 = "untitled-event" ∧
    generateSlug t2 = generateSlug t1 ∧
    (∀ (store : Store) (d1 d2 : CreateEventRequest)
        (orgA orgB nidA nidB : String) (nowA nowB : Int) (ev : Event)
        (store' : Store),
      d1.title = t1 → d2.title = t2 →
      create store d1 orgA nidA nowA = Except.ok (ev, store') →
      create store' d2 orgB nidB nowB = Except.error ErrorCode.CONFLICT) := by
  have g1 : generateSlug t1 = "untitled-event" := by
    simp [generateSlug, h1]
  have g2 : generateSlug t2 = "untitled-event" := by
    simp [generateSlug, h2]
  refine ⟨g1, by rw [g1, g2], ?_⟩
  intro store d1 d2 orgA orgB nidA nidB nowA nowB ev store' hd1 hd2 hcr
  obtain ⟨hslug, hstore⟩ :=
    create_ok_spec store d1 orgA nidA nowA ev store' hcr
  apply create_conflict_of_mem_slug store' d2 orgB nidB nowB ev
  · rw [hstore]
    simp
  · rw [hslug, hd1, hd2, g1, g2]

/-- The payload for a first all-punctuation title. -/
def cr1 : CreateEventRequest :=
  { title := "!!!"
    description := "A first event"
    startDateTime := 0
    endDateTime := 1
    timezone := "UTC"
    location := loc0
    visibility := Visibility.publicV
    images := imgs0 }

/-- The payload for a second, different all-punctuation title. -/
def cr2 : CreateEventRequest := { cr1 with title := "???" }

/-- The event created from the first payload. -/
def c10Ev : Event :=
  match create [] cr1 "o1" "i1" 0 with
  | Except.ok (e, _) => e
  | Except.error _ => evA

/-- The store after creating the first event. -/
def c10Store : Store :=
  match create [] cr1 "o1" "i1" 0 with
  | Except.ok (_, s) => s
  | Except.error _ => []

/-- C10 witness: `!!!` and `???` both derive `untitled-event`, and the
second create collides with the first. -/
theorem claim_C10_witness :
    generateSlug "!!!" = "untitled-event" ∧
    generateSlug "???" = generateSlug "!!!" ∧
    create c10Store cr2 "o2" "i2" 1 = Except.error ErrorCode.CONFLICT := by
  have h := claim_C10_untitled_fallback "!!!" "???" (by decide) (by decide)
  exact ⟨h.1, h.2.1, h.2.2 [] cr1 cr2 "o1" "o2" "i1" "i2" 0 1 c10Ev c10Store
    rfl rfl (by rfl)⟩

end EMS
